import Mathlib

/-!
Verification of the `raccoon_diffusion` DDPM/DDIM sampler
(`src/raccoon_diffusion/diffusion.py`) against its design specification.

Shallow embedding conventions:
* torch float tensors are modelled over exact fields: the purely rational part
  of the noise schedule (betas, alphas, cumulative products, posterior
  variance) lives in `ℚ`; everything involving square roots lives in `ℝ`.
* A 4-d tensor of shape (B, C, H, W) is a function on four `Fin` index types.
* torch's global random generator is modelled as an explicit state of an
  abstract type `σ`, with `manual_seed` and `randn` supplied by a `Generator`
  structure; the samplers thread the state exactly where the Python code
  draws from (or reseeds) the global generator.
* Python-level exceptions (`ZeroDivisionError` from `//`, `ValueError` from
  `range` with step 0, `RuntimeError` from `torch.linspace` with negative
  steps) become `Except String`.
-/

/-- Tensor shape (batch, channels, height, width), as used by the sampler. -/
structure Shape where
  batch : ℕ
  channels : ℕ
  height : ℕ
  width : ℕ
deriving DecidableEq

/-- A real-valued tensor of the given shape. -/
def Tensor (sh : Shape) : Type :=
  Fin sh.batch → Fin sh.channels → Fin sh.height → Fin sh.width → ℝ

/-- The denoising network contract: (noised batch, float timestep batch) ↦
predicted-noise batch of the same shape. -/
def Network (sh : Shape) : Type :=
  Tensor sh → (Fin sh.batch → ℝ) → Tensor sh

/-- Model of torch's global random generator: an abstract state type with
`manual_seed` (build a state deterministically from an integer seed) and
`randn` (draw a standard-normal tensor of a requested shape, advancing the
state). -/
structure Generator (σ : Type) where
  manualSeed : ℤ → σ
  randn : σ → (sh : Shape) → Tensor sh × σ

/-- `torch.clamp x lo hi` = min(max(x, lo), hi). -/
def clamp (x lo hi : ℝ) : ℝ :=
  min hi (max lo x)

/-- The values of `torch.linspace start stop steps` (for `steps ≥ 0`):
`steps` evenly spaced points from `start` to `stop` inclusive; a single
point is `start` itself. -/
def linspaceList (start stop : ℚ) (steps : ℕ) : List ℚ :=
  (List.range steps).map fun i : ℕ =>
    if steps = 1 then start else start + (i : ℚ) * (stop - start) / ((steps : ℚ) - 1)

/-- `torch.cumprod` along a 1-d list: entry `i` is the product of the first
`i+1` entries. -/
def cumprod (l : List ℚ) : List ℚ :=
  (List.range l.length).map fun i => (l.take (i + 1)).prod

/-- The precomputed rational part of the `GaussianDiffusion` schedule
(the square-root tensors of `__init__` are derived accessors below, since
square roots leave `ℚ`). -/
structure GaussianDiffusion where
  timesteps : ℕ
  betas : List ℚ
  alphas : List ℚ
  alphas_cumprod : List ℚ
  alphas_cumprod_prev : List ℚ
  posterior_variance : List ℚ
deriving DecidableEq

namespace GaussianDiffusion

/-- The schedule construction of `GaussianDiffusion.__init__` for a
non-negative number of timesteps, line for line:
betas = linspace(beta_start, beta_end, T); alphas = 1 - betas;
alphas_cumprod = cumprod(alphas); alphas_cumprod_prev = pad(ac[:-1],(1,0),1);
posterior_variance = betas * (1 - ac_prev) / (1 - ac). -/
def build (T : ℕ) (beta_start beta_end : ℚ) : GaussianDiffusion :=
  let betas := linspaceList beta_start beta_end T
  let alphas := betas.map fun b => 1 - b
  let alphas_cumprod := cumprod alphas
  let alphas_cumprod_prev := 1 :: alphas_cumprod.dropLast
  let posterior_variance := (List.range T).map fun i =>
    betas.getD i 0 * (1 - alphas_cumprod_prev.getD i 0) / (1 - alphas_cumprod.getD i 0)
  { timesteps := T
    betas := betas
    alphas := alphas
    alphas_cumprod := alphas_cumprod
    alphas_cumprod_prev := alphas_cumprod_prev
    posterior_variance := posterior_variance }

/-- `GaussianDiffusion.__init__` itself: the only failure the Python code can
produce is `torch.linspace`'s own RuntimeError for a negative step count; no
other validation exists in the constructor. -/
def init (timesteps : ℤ) (beta_start beta_end : ℚ) : Except String GaussianDiffusion :=
  if timesteps < 0 then Except.error "number of steps must be non-negative"
  else Except.ok (build timesteps.toNat beta_start beta_end)

/-- `self.sqrt_alphas_cumprod[i]`. -/
noncomputable def sqrt_alphas_cumprod (g : GaussianDiffusion) (i : ℕ) : ℝ :=
  Real.sqrt ((g.alphas_cumprod.getD i 0 : ℚ) : ℝ)

/-- `self.sqrt_one_minus_alphas_cumprod[i]`. -/
noncomputable def sqrt_one_minus_alphas_cumprod (g : GaussianDiffusion) (i : ℕ) : ℝ :=
  Real.sqrt (1 - ((g.alphas_cumprod.getD i 0 : ℚ) : ℝ))

/-- `self.sqrt_recip_alphas[i]`. -/
noncomputable def sqrt_recip_alphas (g : GaussianDiffusion) (i : ℕ) : ℝ :=
  Real.sqrt (1 / ((g.alphas.getD i 0 : ℚ) : ℝ))

/-- Forward diffusion `q_sample` with an explicitly supplied noise tensor
(the Python code draws fresh noise only when the argument is omitted):
`sqrt_alphas_cumprod[t] * x_0 + sqrt_one_minus_alphas_cumprod[t] * noise`,
the per-sample coefficients broadcast over channel/height/width. -/
noncomputable def q_sample (g : GaussianDiffusion) {sh : Shape} (x_0 : Tensor sh)
    (t : Fin sh.batch → ℕ) (noise : Tensor sh) : Tensor sh :=
  fun b c h w =>
    g.sqrt_alphas_cumprod (t b) * x_0 b c h w +
      g.sqrt_one_minus_alphas_cumprod (t b) * noise b c h w

/-- Single reverse step `p_sample`: one network evaluation, the posterior
mean, and — only when `t[0] ≠ 0` — one fresh noise draw scaled by the square
root of the posterior variance. `hb` witnesses that the batch is non-empty so
that the Python indexing `t[0]` is defined. -/
noncomputable def p_sample {σ : Type} (gen : Generator σ) (g : GaussianDiffusion)
    {sh : Shape} (model : Network sh) (x_t : Tensor sh) (t : Fin sh.batch → ℕ)
    (hb : 0 < sh.batch) (st : σ) : Tensor sh × σ :=
  let predicted_noise := model x_t fun b => ((t b : ℕ) : ℝ)
  let model_mean : Tensor sh := fun b c h w =>
    g.sqrt_recip_alphas (t b) *
      (x_t b c h w -
        ((g.betas.getD (t b) 0 : ℚ) : ℝ) * predicted_noise b c h w /
          g.sqrt_one_minus_alphas_cumprod (t b))
  if t ⟨0, hb⟩ = 0 then (model_mean, st)
  else
    let r := gen.randn st sh
    (fun b c h w =>
        model_mean b c h w +
          Real.sqrt ((g.posterior_variance.getD (t b) 0 : ℚ) : ℝ) * r.1 b c h w,
      r.2)

/-- The timestep sequence of the ancestral loop:
`reversed(range(self.timesteps))`. -/
def sampleTimesteps (g : GaussianDiffusion) : List ℕ :=
  (List.range g.timesteps).reverse

/-- The ancestral sampling loop: fold `p_sample` (with a constant timestep
batch) over a list of timesteps, threading the generator state. -/
noncomputable def sampleLoop {σ : Type} (gen : Generator σ) (g : GaussianDiffusion)
    {sh : Shape} (model : Network sh) (hb : 0 < sh.batch) :
    List ℕ → Tensor sh × σ → Tensor sh × σ
  | [], p => p
  | t :: rest, p => sampleLoop gen g model hb rest (p_sample gen g model p.1 (fun _ => t) hb p.2)

/-- The ancestral sampling loop instrumented with a counter that increments
once per `p_sample` call (hence once per network evaluation). -/
noncomputable def sampleLoopCounted {σ : Type} (gen : Generator σ) (g : GaussianDiffusion)
    {sh : Shape} (model : Network sh) (hb : 0 < sh.batch) :
    List ℕ → Tensor sh × σ × ℕ → Tensor sh × σ × ℕ
  | [], p => p
  | t :: rest, p =>
    let r := p_sample gen g model p.1 (fun _ => t) hb p.2.1
    sampleLoopCounted gen g model hb rest (r.1, r.2, p.2.2 + 1)

/-- Full ancestral sampling `sample`: optionally reseed the generator, draw
the initial Gaussian tensor, fold `p_sample` over
`reversed(range(timesteps))`, and return the final tensor. -/
noncomputable def sample {σ : Type} (gen : Generator σ) (g : GaussianDiffusion)
    {sh : Shape} (model : Network sh) (hb : 0 < sh.batch) (seed : Option ℤ)
    (st : σ) : Tensor sh :=
  let st1 := match seed with
    | some sd => gen.manualSeed sd
    | none => st
  let r := gen.randn st1 sh
  (sampleLoop gen g model hb (sampleTimesteps g) r).1

end GaussianDiffusion

/-- Python floor division `a // b`, raising `ZeroDivisionError` on `b = 0`. -/
def pyFloorDiv (a b : ℤ) : Except String ℤ :=
  if b = 0 then Except.error "integer division or modulo by zero"
  else Except.ok (Int.fdiv a b)

/-- The number of elements of Python's `range(start, stop, step)` for
`step ≠ 0`: `max 0 ⌈(stop-start)/step⌉` for positive step, and symmetrically
for negative step. -/
def pyRangeLen (start stop step : ℤ) : ℕ :=
  if 0 < step then ((stop - start + step - 1).fdiv step).toNat
  else ((start - stop + (-step) - 1).fdiv (-step)).toNat

/-- Python `list(range(start, stop, step))`, raising `ValueError` on
`step = 0`. -/
def pyRange (start stop step : ℤ) : Except String (List ℤ) :=
  if step = 0 then Except.error "range() arg 3 must not be zero"
  else Except.ok ((List.range (pyRangeLen start stop step)).map fun i : ℕ => start + (i : ℤ) * step)

namespace GaussianDiffusion

/-- The DDIM sub-schedule construction of `sample_ddim`:
`step_size = timesteps // steps; list(reversed(range(0, timesteps, step_size)))`. -/
def ddimTimesteps (T : ℕ) (steps : ℤ) : Except String (List ℤ) := do
  let step_size ← pyFloorDiv (T : ℤ) steps
  let ts ← pyRange 0 (T : ℤ) step_size
  pure ts.reverse

/-- `self.alphas_cumprod[t]` as a real number, indexed by a DDIM integer
timestep. -/
noncomputable def alphasCumprodR (g : GaussianDiffusion) (t : ℤ) : ℝ :=
  ((g.alphas_cumprod.getD t.toNat 0 : ℚ) : ℝ)

/-- The `alpha_cumprod_prev` of a DDIM iteration: the cumulative alpha of the
next (smaller) timestep in the schedule, or exactly `1.0` when the current
iteration is the last one. -/
noncomputable def ddimNextAlpha (g : GaussianDiffusion) : List ℤ → ℝ
  | [] => 1
  | t :: _ => alphasCumprodR g t

/-- One DDIM iteration body: one network evaluation, `pred_x0` clamped to
`[-1, 1]`, the direction term, and the deterministic update. -/
noncomputable def ddimStep (g : GaussianDiffusion) {sh : Shape} (model : Network sh)
    (t : ℤ) (alpha_cumprod_prev : ℝ) (x : Tensor sh) : Tensor sh :=
  let predicted_noise := model x fun _ => (t : ℝ)
  let alpha_cumprod : ℝ := alphasCumprodR g t
  let pred_x0 : Tensor sh := fun b c h w =>
    clamp ((x b c h w - Real.sqrt (1 - alpha_cumprod) * predicted_noise b c h w) /
      Real.sqrt alpha_cumprod) (-1) 1
  fun b c h w =>
    Real.sqrt alpha_cumprod_prev * pred_x0 b c h w +
      Real.sqrt (1 - alpha_cumprod_prev) * predicted_noise b c h w

/-- The DDIM loop over the reversed sub-schedule (no noise draw inside). -/
noncomputable def ddimLoop (g : GaussianDiffusion) {sh : Shape} (model : Network sh) :
    List ℤ → Tensor sh → Tensor sh
  | [], x => x
  | t :: rest, x => ddimLoop g model rest (ddimStep g model t (ddimNextAlpha g rest) x)

/-- Accelerated sampling `sample_ddim`: optionally reseed, build the
sub-schedule (which may raise), draw initial noise, and run the
deterministic DDIM loop. -/
noncomputable def sample_ddim {σ : Type} (gen : Generator σ) (g : GaussianDiffusion)
    {sh : Shape} (model : Network sh) (seed : Option ℤ) (steps : ℤ)
    (st : σ) : Except String (Tensor sh) := do
  let st1 := match seed with
    | some sd => gen.manualSeed sd
    | none => st
  let ts ← ddimTimesteps g.timesteps steps
  let r := gen.randn st1 sh
  pure (ddimLoop g model ts r.1)

/-- The chain of per-iteration scale factors
`sqrt(alpha_cumprod_next) / sqrt(alpha_cumprod[t])` over a DDIM
sub-schedule (the multiplier the specification's zero-noise closed form
applies to the initial sample). -/
noncomputable def ddimChain (g : GaussianDiffusion) : List ℤ → ℝ
  | [] => 1
  | t :: rest =>
    Real.sqrt (ddimNextAlpha g rest) / Real.sqrt (alphasCumprodR g t) * ddimChain g rest

end GaussianDiffusion

/-- A stub network that always predicts zero noise. -/
def zeroNetwork (sh : Shape) : Network sh :=
  fun _ _ _ _ _ _ => 0

/-- The application's target shape (1, 3, 64, 64). -/
def shape1 : Shape :=
  ⟨1, 3, 64, 64⟩

/-- The zero-noise stub network at the target shape. -/
def zeroNet : Network shape1 :=
  zeroNetwork shape1

/-- A concrete generator instance over a unit state whose every draw is the
all-ones tensor (a legitimate value of a standard-normal draw). -/
def constGen : Generator Unit :=
  { manualSeed := fun _ => ()
    randn := fun st sh => (fun _ _ _ _ => (1 : ℝ), st) }

/-- The all-ones tensor at the target shape. -/
def ones : Tensor shape1 :=
  fun _ _ _ _ => 1

/-- A concrete generator over a natural-number state: seeding stores the
seed's absolute value, and each draw returns a constant tensor holding the
current state and then increments the state. Distinct states produce
distinct draws, so it exercises the determinism claims non-vacuously. -/
def natGen : Generator ℕ :=
  { manualSeed := fun sd => sd.natAbs
    randn := fun st sh => (fun _ _ _ _ => (st : ℝ), st + 1) }

/-- A small concrete schedule: T = 10, beta from 1/10 to 1/5. -/
def g10 : GaussianDiffusion :=
  GaussianDiffusion.build 10 (1 / 10) (1 / 5)

/-- The schedule of the specification's end-to-end scenario:
T = 1000, beta_start = 1e-4, beta_end = 0.02. -/
def g1000 : GaussianDiffusion :=
  GaussianDiffusion.build 1000 (1 / 10000) (1 / 50)

/-- The DDIM sub-schedule for T = 1000, S = 50 (step size 1000 // 50 = 20):
[980, 960, ..., 20, 0]. -/
def ddimL50 : List ℤ :=
  ((List.range 50).map fun i => (i : ℤ) * 20).reverse

deriving instance DecidableEq for Except


/-! ### Helper lemmas about the schedule construction -/

namespace GaussianDiffusion

theorem build_betas_def (T : ℕ) (bs be : ℚ) :
    (build T bs be).betas = linspaceList bs be T := rfl

theorem build_alphas_def (T : ℕ) (bs be : ℚ) :
    (build T bs be).alphas = (linspaceList bs be T).map fun b => 1 - b := rfl

theorem build_alphas_cumprod_def (T : ℕ) (bs be : ℚ) :
    (build T bs be).alphas_cumprod = cumprod ((linspaceList bs be T).map fun b => 1 - b) := rfl

theorem build_alphas_cumprod_prev_def (T : ℕ) (bs be : ℚ) :
    (build T bs be).alphas_cumprod_prev =
      1 :: (cumprod ((linspaceList bs be T).map fun b => 1 - b)).dropLast := rfl

theorem build_posterior_variance_def (T : ℕ) (bs be : ℚ) :
    (build T bs be).posterior_variance = (List.range T).map fun i =>
      (build T bs be).betas.getD i 0 * (1 - (build T bs be).alphas_cumprod_prev.getD i 0) /
        (1 - (build T bs be).alphas_cumprod.getD i 0) := rfl

theorem linspaceList_length (s e : ℚ) (T : ℕ) : (linspaceList s e T).length = T := by
  unfold linspaceList
  rw [List.length_map, List.length_range]

theorem linspaceList_getD (s e : ℚ) (T i : ℕ) (hi : i < T) :
    (linspaceList s e T).getD i 0 =
      if T = 1 then s else s + i * (e - s) / (T - 1) := by
  rw [List.getD_eq_getElem _ _ (by rw [linspaceList_length]; exact hi)]
  unfold linspaceList
  rw [List.getElem_map, List.getElem_range]

theorem cumprod_length (l : List ℚ) : (cumprod l).length = l.length := by
  unfold cumprod
  rw [List.length_map, List.length_range]

theorem cumprod_getD (l : List ℚ) (i : ℕ) (hi : i < l.length) :
    (cumprod l).getD i 0 = (l.take (i + 1)).prod := by
  rw [List.getD_eq_getElem _ _ (by rw [cumprod_length]; exact hi)]
  unfold cumprod
  rw [List.getElem_map, List.getElem_range]

theorem list_prod_le_one {l : List ℚ} (h0 : ∀ x ∈ l, 0 ≤ x) (h1 : ∀ x ∈ l, x ≤ 1) :
    l.prod ≤ 1 := by
  induction l with
  | nil => simp
  | cons a l ih =>
    rw [List.prod_cons]
    have ha0 := h0 a (List.mem_cons_self a l)
    have ha1 := h1 a (List.mem_cons_self a l)
    have hl : l.prod ≤ 1 := ih (fun x hx => h0 x (List.mem_cons_of_mem a hx))
      (fun x hx => h1 x (List.mem_cons_of_mem a hx))
    have hl0 : 0 ≤ l.prod := List.prod_nonneg fun x hx => h0 x (List.mem_cons_of_mem a hx)
    calc a * l.prod ≤ 1 * 1 := mul_le_mul ha1 hl hl0 zero_le_one
      _ = 1 := one_mul 1

section BuildFacts

variable {T : ℕ} {bs be : ℚ}

theorem build_betas_length : (build T bs be).betas.length = T := by
  rw [build_betas_def, linspaceList_length]

theorem build_alphas_length : (build T bs be).alphas.length = T := by
  rw [build_alphas_def, List.length_map, linspaceList_length]

theorem build_alphas_cumprod_length : (build T bs be).alphas_cumprod.length = T := by
  rw [build_alphas_cumprod_def, cumprod_length, List.length_map, linspaceList_length]

theorem build_betas_getD (h0 : 0 < bs) (h1 : bs < be) (h2 : be < 1) {i : ℕ} (hi : i < T) :
    0 < (build T bs be).betas.getD i 0 ∧ (build T bs be).betas.getD i 0 < 1 := by
  rw [build_betas_def, linspaceList_getD bs be T i hi]
  by_cases h : T = 1
  · rw [if_pos h]
    exact ⟨h0, h1.trans h2⟩
  · rw [if_neg h]
    have hT2 : 2 ≤ T := by omega
    have hden : (0 : ℚ) < (T : ℚ) - 1 := by
      have h2T : (2 : ℚ) ≤ (T : ℚ) := by exact_mod_cast hT2
      linarith
    have hi0 : (0 : ℚ) ≤ (i : ℚ) := Nat.cast_nonneg i
    have hfrac0 : (0 : ℚ) ≤ (i : ℚ) * (be - bs) / ((T : ℚ) - 1) := by
      apply div_nonneg _ hden.le
      nlinarith
    refine ⟨by linarith, ?_⟩
    have hile : (i : ℚ) ≤ (T : ℚ) - 1 := by
      have hi1 : (i : ℚ) + 1 ≤ (T : ℚ) := by exact_mod_cast hi
      linarith
    have hfrac1 : (i : ℚ) * (be - bs) / ((T : ℚ) - 1) ≤ be - bs := by
      rw [div_le_iff₀ hden]
      nlinarith
    linarith

theorem build_betas_getD_zero (hT : 0 < T) : (build T bs be).betas.getD 0 0 = bs := by
  rw [build_betas_def, linspaceList_getD bs be T 0 hT]
  by_cases h : T = 1
  · rw [if_pos h]
  · rw [if_neg h]
    simp

theorem build_alphas_getD {i : ℕ} (hi : i < T) :
    (build T bs be).alphas.getD i 0 = 1 - (build T bs be).betas.getD i 0 := by
  rw [build_alphas_def, build_betas_def]
  rw [List.getD_eq_getElem _ _ (by rw [List.length_map, linspaceList_length]; exact hi),
    List.getD_eq_getElem _ _ (by rw [linspaceList_length]; exact hi)]
  rw [List.getElem_map]

theorem build_alphas_mem_bounds (h0 : 0 < bs) (h1 : bs < be) (h2 : be < 1)
    {x : ℚ} (hx : x ∈ (build T bs be).alphas) : 0 < x ∧ x < 1 := by
  obtain ⟨i, hi, hval⟩ := List.getElem_of_mem hx
  have hiT : i < T := by rw [build_alphas_length] at hi; exact hi
  have hval' : 1 - (build T bs be).betas.getD i 0 = x := by
    rw [← build_alphas_getD hiT, List.getD_eq_getElem _ _ hi]
    exact hval
  have hb := build_betas_getD h0 h1 h2 hiT
  constructor
  · rw [← hval']; linarith [hb.2]
  · rw [← hval']; linarith [hb.1]

theorem build_alphas_cumprod_getD {i : ℕ} (hi : i < T) :
    (build T bs be).alphas_cumprod.getD i 0 = ((build T bs be).alphas.take (i + 1)).prod := by
  rw [build_alphas_cumprod_def, ← build_alphas_def]
  exact cumprod_getD _ i (by rw [build_alphas_length]; exact hi)

theorem build_alphas_cumprod_pos (h0 : 0 < bs) (h1 : bs < be) (h2 : be < 1)
    {i : ℕ} (hi : i < T) : 0 < (build T bs be).alphas_cumprod.getD i 0 := by
  rw [build_alphas_cumprod_getD hi]
  exact List.prod_pos fun x hx =>
    (build_alphas_mem_bounds h0 h1 h2 (List.mem_of_mem_take hx)).1

theorem build_alphas_cumprod_le_one (h0 : 0 < bs) (h1 : bs < be) (h2 : be < 1)
    {i : ℕ} (hi : i < T) : (build T bs be).alphas_cumprod.getD i 0 ≤ 1 := by
  rw [build_alphas_cumprod_getD hi]
  exact list_prod_le_one
    (fun x hx => (build_alphas_mem_bounds h0 h1 h2 (List.mem_of_mem_take hx)).1.le)
    (fun x hx => (build_alphas_mem_bounds h0 h1 h2 (List.mem_of_mem_take hx)).2.le)

theorem build_alphas_cumprod_antitone (h0 : 0 < bs) (h1 : bs < be) (h2 : be < 1)
    {i : ℕ} (hi : i + 1 < T) :
    (build T bs be).alphas_cumprod.getD (i + 1) 0 ≤ (build T bs be).alphas_cumprod.getD i 0 := by
  rw [build_alphas_cumprod_getD hi, build_alphas_cumprod_getD (Nat.lt_of_succ_lt hi)]
  have hlen : i + 1 < (build T bs be).alphas.length := by
    rw [build_alphas_length]; exact hi
  rw [List.prod_take_succ _ (i + 1) hlen]
  have hmem : (build T bs be).alphas[i + 1] ∈ (build T bs be).alphas :=
    List.getElem_mem hlen
  have hb := build_alphas_mem_bounds h0 h1 h2 hmem
  have hpos : 0 < ((build T bs be).alphas.take (i + 1)).prod :=
    List.prod_pos fun x hx =>
      (build_alphas_mem_bounds h0 h1 h2 (List.mem_of_mem_take hx)).1
  exact mul_le_of_le_one_right hpos.le hb.2.le

theorem build_alphas_cumprod_getD_zero (hT : 0 < T) :
    (build T bs be).alphas_cumprod.getD 0 0 = 1 - bs := by
  rw [build_alphas_cumprod_getD hT]
  have hlen : 0 < (build T bs be).alphas.length := by rw [build_alphas_length]; exact hT
  have h0 : (build T bs be).alphas.getD 0 0 = 1 - bs := by
    rw [build_alphas_getD hT, build_betas_getD_zero hT]
  cases hl : (build T bs be).alphas with
  | nil => rw [hl] at hlen; simp at hlen
  | cons a l =>
    rw [hl] at h0
    simp only [List.getD_cons_zero] at h0
    simp [h0]

theorem build_alphas_cumprod_le_zeroth (h0 : 0 < bs) (h1 : bs < be) (h2 : be < 1)
    (i : ℕ) : i < T →
    (build T bs be).alphas_cumprod.getD i 0 ≤ (build T bs be).alphas_cumprod.getD 0 0 := by
  induction i with
  | zero => exact fun _ => le_rfl
  | succ j ih =>
    intro hi
    exact (build_alphas_cumprod_antitone h0 h1 h2 hi).trans (ih (Nat.lt_of_succ_lt hi))

theorem build_alphas_cumprod_lt_one (h0 : 0 < bs) (h1 : bs < be) (h2 : be < 1)
    {i : ℕ} (hi : i < T) : (build T bs be).alphas_cumprod.getD i 0 < 1 := by
  have hT : 0 < T := by omega
  calc (build T bs be).alphas_cumprod.getD i 0
      ≤ (build T bs be).alphas_cumprod.getD 0 0 :=
        build_alphas_cumprod_le_zeroth h0 h1 h2 i hi
    _ = 1 - bs := build_alphas_cumprod_getD_zero hT
    _ < 1 := by linarith

theorem build_alphas_cumprod_prev_getD_zero :
    (build T bs be).alphas_cumprod_prev.getD 0 0 = 1 := by
  rw [build_alphas_cumprod_prev_def]
  rfl

theorem build_alphas_cumprod_prev_getD_succ {i : ℕ} (hi : i + 1 < T) :
    (build T bs be).alphas_cumprod_prev.getD (i + 1) 0 =
      (build T bs be).alphas_cumprod.getD i 0 := by
  rw [build_alphas_cumprod_prev_def, ← build_alphas_cumprod_def]
  have hlen : i < (build T bs be).alphas_cumprod.dropLast.length := by
    rw [List.length_dropLast, build_alphas_cumprod_length]
    omega
  rw [List.getD_cons_succ, List.getD_eq_getElem _ _ hlen, List.getElem_dropLast,
    List.getD_eq_getElem _ _ (by rw [build_alphas_cumprod_length]; omega)]

theorem build_posterior_variance_getD {i : ℕ} (hi : i < T) :
    (build T bs be).posterior_variance.getD i 0 =
      (build T bs be).betas.getD i 0 * (1 - (build T bs be).alphas_cumprod_prev.getD i 0) /
        (1 - (build T bs be).alphas_cumprod.getD i 0) := by
  rw [build_posterior_variance_def]
  rw [List.getD_eq_getElem _ _ (by rw [List.length_map, List.length_range]; exact hi)]
  rw [List.getElem_map, List.getElem_range]

end BuildFacts

end GaussianDiffusion

theorem shape1_batch_pos : 0 < shape1.batch := by
  decide

/-! ### Claim C1: sampling is a deterministic function of
(seed, shape, steps, weights) -/

/-- C1: for every generator implementation, network, shape, step count and
integer seed, two calls to `sample` (and likewise to `sample_ddim`) with the
same seed agree even when the global generator is in two different states
beforehand: `manual_seed` makes the pre-existing state irrelevant, and no
other stochastic source exists in either sampler. -/
theorem sampling_deterministic_given_seed {σ : Type} (gen : Generator σ)
    (g : GaussianDiffusion) {sh : Shape} (model : Network sh) (hb : 0 < sh.batch)
    (sd : ℤ) (steps : ℤ) (st₁ st₂ : σ) :
    GaussianDiffusion.sample gen g model hb (some sd) st₁ =
      GaussianDiffusion.sample gen g model hb (some sd) st₂ ∧
    GaussianDiffusion.sample_ddim gen g model (some sd) steps st₁ =
      GaussianDiffusion.sample_ddim gen g model (some sd) steps st₂ :=
  ⟨rfl, rfl⟩

/-- Witness for C1 at a concrete generator, schedule, network, shape, seed
and two distinct pre-states. -/
theorem sampling_deterministic_given_seed_witness :
    GaussianDiffusion.sample natGen g10 zeroNet shape1_batch_pos (some 42) 0 =
      GaussianDiffusion.sample natGen g10 zeroNet shape1_batch_pos (some 42) 5 ∧
    GaussianDiffusion.sample_ddim natGen g10 zeroNet (some 42) 5 0 =
      GaussianDiffusion.sample_ddim natGen g10 zeroNet (some 42) 5 5 :=
  sampling_deterministic_given_seed natGen g10 zeroNet shape1_batch_pos 42 5 0 5

/-! ### Claim C3: `p_sample` at an all-zero timestep batch adds no noise -/

/-- C3: with the all-zero timestep batch, `p_sample` returns exactly the
posterior mean `sqrt_recip_alphas[0] * (x_t - betas[0] * predicted_noise /
sqrt_one_minus_alphas_cumprod[0])`, leaves the generator state untouched, and
two calls from different global generator states return identical outputs. -/
theorem p_sample_zero_timestep_deterministic {σ : Type} (gen : Generator σ)
    (g : GaussianDiffusion) {sh : Shape} (model : Network sh) (x_t : Tensor sh)
    (hb : 0 < sh.batch) (st₁ st₂ : σ) :
    GaussianDiffusion.p_sample gen g model x_t (fun _ => 0) hb st₁ =
      (fun b c h w =>
        g.sqrt_recip_alphas 0 *
          (x_t b c h w -
            ((g.betas.getD 0 0 : ℚ) : ℝ) * (model x_t fun _ => ((0 : ℕ) : ℝ)) b c h w /
              g.sqrt_one_minus_alphas_cumprod 0), st₁) ∧
    (GaussianDiffusion.p_sample gen g model x_t (fun _ => 0) hb st₁).1 =
      (GaussianDiffusion.p_sample gen g model x_t (fun _ => 0) hb st₂).1 :=
  ⟨rfl, rfl⟩

/-- Witness for C3 at a concrete generator, schedule, network, input tensor
and two distinct pre-states. -/
theorem p_sample_zero_timestep_deterministic_witness :
    GaussianDiffusion.p_sample natGen g10 zeroNet ones (fun _ => 0) shape1_batch_pos 3 =
      (fun b c h w =>
        g10.sqrt_recip_alphas 0 *
          (ones b c h w -
            ((g10.betas.getD 0 0 : ℚ) : ℝ) * (zeroNet ones fun _ => ((0 : ℕ) : ℝ)) b c h w /
              g10.sqrt_one_minus_alphas_cumprod 0), 3) ∧
    (GaussianDiffusion.p_sample natGen g10 zeroNet ones (fun _ => 0) shape1_batch_pos 3).1 =
      (GaussianDiffusion.p_sample natGen g10 zeroNet ones (fun _ => 0) shape1_batch_pos 7).1 :=
  p_sample_zero_timestep_deterministic natGen g10 zeroNet ones shape1_batch_pos 3 7

/-! ### Claim C4: constructor validation -/

/-- C4 counterexample: `beta_end = 1/10 ≤ beta_start = 1/2` is an invalid
construction input, yet `GaussianDiffusion.__init__` raises nothing and
silently builds the schedule. -/
theorem init_silently_accepts_invalid_bounds :
    GaussianDiffusion.init 10 (1 / 2) (1 / 10) =
      Except.ok (GaussianDiffusion.build (Int.toNat 10) (1 / 2) (1 / 10)) ∧
    (1 / 10 : ℚ) ≤ 1 / 2 := by
  constructor
  · rfl
  · norm_num

/-- C4 amended: the constructor performs no validation of its own; the only
failure is `torch.linspace`'s RuntimeError on a negative step count.
`T = 0`, `beta_end ≤ beta_start`, and beta bounds outside `(0,1)` all
silently build a schedule. -/
theorem init_validates_only_negative_timesteps (t : ℤ) (bs be : ℚ) :
    (t < 0 →
      GaussianDiffusion.init t bs be = Except.error "number of steps must be non-negative") ∧
    (0 ≤ t →
      GaussianDiffusion.init t bs be = Except.ok (GaussianDiffusion.build t.toNat bs be)) := by
  constructor
  · intro h
    unfold GaussianDiffusion.init
    rw [if_pos h]
  · intro h
    unfold GaussianDiffusion.init
    rw [if_neg (by omega)]

/-- Witness for the amended C4 at a negative and a non-negative timestep
count (the latter with invalid beta bounds). -/
theorem init_validates_only_negative_timesteps_witness :
    GaussianDiffusion.init (-3) (1 / 10) (1 / 5) =
      Except.error "number of steps must be non-negative" ∧
    GaussianDiffusion.init 10 (1 / 2) (1 / 10) =
      Except.ok (GaussianDiffusion.build (Int.toNat 10) (1 / 2) (1 / 10)) :=
  ⟨(init_validates_only_negative_timesteps (-3) (1 / 10) (1 / 5)).1 (by norm_num),
    (init_validates_only_negative_timesteps 10 (1 / 2) (1 / 10)).2 (by norm_num)⟩

/-! ### Claim C6: posterior variance at index 0 and well-definedness -/

/-- C6: for every valid schedule, `posterior_variance[0] = 0` exactly, every
denominator `1 - alphas_cumprod[i]` is strictly positive (so no division by
zero and no NaN/Inf arises anywhere in the tensor), and every entry of
`posterior_variance` is a well-defined non-negative rational. -/
theorem posterior_variance_zero_and_welldefined (T : ℕ) (bs be : ℚ)
    (hT : 0 < T) (h0 : 0 < bs) (h1 : bs < be) (h2 : be < 1) :
    (GaussianDiffusion.build T bs be).posterior_variance.getD 0 0 = 0 ∧
    (∀ i < T, 0 < 1 - (GaussianDiffusion.build T bs be).alphas_cumprod.getD i 0) ∧
    (∀ i < T, 0 ≤ (GaussianDiffusion.build T bs be).posterior_variance.getD i 0) := by
  have hden : ∀ i < T, 0 < 1 - (GaussianDiffusion.build T bs be).alphas_cumprod.getD i 0 := by
    intro i hi
    have := GaussianDiffusion.build_alphas_cumprod_lt_one h0 h1 h2 hi
    linarith
  refine ⟨?_, hden, ?_⟩
  · rw [GaussianDiffusion.build_posterior_variance_getD hT,
      GaussianDiffusion.build_alphas_cumprod_prev_getD_zero]
    simp
  · intro i hi
    rw [GaussianDiffusion.build_posterior_variance_getD hi]
    have hbeta := GaussianDiffusion.build_betas_getD h0 h1 h2 hi
    have hprev : (GaussianDiffusion.build T bs be).alphas_cumprod_prev.getD i 0 ≤ 1 := by
      cases i with
      | zero => rw [GaussianDiffusion.build_alphas_cumprod_prev_getD_zero]
      | succ j =>
        rw [GaussianDiffusion.build_alphas_cumprod_prev_getD_succ hi]
        exact GaussianDiffusion.build_alphas_cumprod_le_one h0 h1 h2 (Nat.lt_of_succ_lt hi)
    apply div_nonneg
    · nlinarith [hbeta.1]
    · linarith [hden i hi]

/-- Witness for C6 at the concrete schedule T = 10, betas from 1/10 to 1/5. -/
theorem posterior_variance_zero_and_welldefined_witness :
    (GaussianDiffusion.build 10 (1 / 10) (1 / 5)).posterior_variance.getD 0 0 = 0 ∧
    (∀ i < 10, 0 < 1 - (GaussianDiffusion.build 10 (1 / 10) (1 / 5)).alphas_cumprod.getD i 0) ∧
    (∀ i < 10, 0 ≤ (GaussianDiffusion.build 10 (1 / 10) (1 / 5)).posterior_variance.getD i 0) :=
  posterior_variance_zero_and_welldefined 10 (1 / 10) (1 / 5) (by norm_num) (by norm_num)
    (by norm_num) (by norm_num)

/-! ### Claim C9: alphas_cumprod invariants -/

/-- C9: for every valid `(T, beta_start, beta_end)` the constructed
`alphas_cumprod` is monotonically non-increasing, every entry lies in
`(0, 1]`, and `alphas_cumprod[0] = 1 - beta_start` exactly. -/
theorem alphas_cumprod_invariants (T : ℕ) (bs be : ℚ)
    (hT : 0 < T) (h0 : 0 < bs) (h1 : bs < be) (h2 : be < 1) :
    (∀ i, i + 1 < T →
      (GaussianDiffusion.build T bs be).alphas_cumprod.getD (i + 1) 0 ≤
        (GaussianDiffusion.build T bs be).alphas_cumprod.getD i 0) ∧
    (∀ i < T, 0 < (GaussianDiffusion.build T bs be).alphas_cumprod.getD i 0 ∧
      (GaussianDiffusion.build T bs be).alphas_cumprod.getD i 0 ≤ 1) ∧
    (GaussianDiffusion.build T bs be).alphas_cumprod.getD 0 0 = 1 - bs := by
  refine ⟨?_, ?_, GaussianDiffusion.build_alphas_cumprod_getD_zero hT⟩
  · intro i hi
    exact GaussianDiffusion.build_alphas_cumprod_antitone h0 h1 h2 hi
  · intro i hi
    exact ⟨GaussianDiffusion.build_alphas_cumprod_pos h0 h1 h2 hi,
      GaussianDiffusion.build_alphas_cumprod_le_one h0 h1 h2 hi⟩

/-- Witness for C9 at the concrete schedule T = 10, betas from 1/10 to 1/5. -/
theorem alphas_cumprod_invariants_witness :
    (∀ i, i + 1 < 10 →
      (GaussianDiffusion.build 10 (1 / 10) (1 / 5)).alphas_cumprod.getD (i + 1) 0 ≤
        (GaussianDiffusion.build 10 (1 / 10) (1 / 5)).alphas_cumprod.getD i 0) ∧
    (∀ i < 10, 0 < (GaussianDiffusion.build 10 (1 / 10) (1 / 5)).alphas_cumprod.getD i 0 ∧
      (GaussianDiffusion.build 10 (1 / 10) (1 / 5)).alphas_cumprod.getD i 0 ≤ 1) ∧
    (GaussianDiffusion.build 10 (1 / 10) (1 / 5)).alphas_cumprod.getD 0 0 = 1 - 1 / 10 :=
  alphas_cumprod_invariants 10 (1 / 10) (1 / 5) (by norm_num) (by norm_num) (by norm_num)
    (by norm_num)

/-! ### Claim C7: the forward corruption formula -/

/-- C7: `q_sample` returns exactly
`sqrt_alphas_cumprod[t] ⊙ x_0 + sqrt_one_minus_alphas_cumprod[t] ⊙ noise`
with the per-sample coefficient broadcast over channels, height and width;
and at `t = 0` with zero noise it returns `sqrt(1 - beta_start) * x_0`,
which is within `beta_start` of `x_0` per unit of signal since
`|sqrt(1 - beta_start) - 1| ≤ beta_start`. -/
theorem q_sample_formula {sh : Shape} (T : ℕ) (bs be : ℚ) (x_0 noise : Tensor sh)
    (t : Fin sh.batch → ℕ) (hT : 0 < T) (h0 : 0 < bs) (h2 : bs < 1) :
    (GaussianDiffusion.q_sample (GaussianDiffusion.build T bs be) x_0 t noise =
      fun b c h w =>
        (GaussianDiffusion.build T bs be).sqrt_alphas_cumprod (t b) * x_0 b c h w +
          (GaussianDiffusion.build T bs be).sqrt_one_minus_alphas_cumprod (t b) *
            noise b c h w) ∧
    (GaussianDiffusion.q_sample (GaussianDiffusion.build T bs be) x_0 (fun _ => 0)
        (fun _ _ _ _ => 0) =
      fun b c h w => Real.sqrt (1 - (bs : ℝ)) * x_0 b c h w) ∧
    |Real.sqrt (1 - (bs : ℝ)) - 1| ≤ (bs : ℝ) := by
  have hbsR0 : (0 : ℝ) < (bs : ℝ) := by exact_mod_cast h0
  have hbsR1 : (bs : ℝ) < 1 := by exact_mod_cast h2
  have hupper : Real.sqrt (1 - (bs : ℝ)) ≤ 1 := Real.sqrt_le_one.mpr (by linarith)
  have hlower : 1 - (bs : ℝ) ≤ Real.sqrt (1 - (bs : ℝ)) := by
    have hsq : (1 - (bs : ℝ)) ^ 2 ≤ 1 - (bs : ℝ) := by nlinarith
    calc 1 - (bs : ℝ) = Real.sqrt ((1 - (bs : ℝ)) ^ 2) := (Real.sqrt_sq (by linarith)).symm
      _ ≤ Real.sqrt (1 - (bs : ℝ)) := Real.sqrt_le_sqrt hsq
  refine ⟨rfl, ?_, ?_⟩
  · funext b c h w
    show (GaussianDiffusion.build T bs be).sqrt_alphas_cumprod 0 * x_0 b c h w +
      (GaussianDiffusion.build T bs be).sqrt_one_minus_alphas_cumprod 0 * 0 =
      Real.sqrt (1 - (bs : ℝ)) * x_0 b c h w
    rw [mul_zero, add_zero]
    unfold GaussianDiffusion.sqrt_alphas_cumprod
    rw [GaussianDiffusion.build_alphas_cumprod_getD_zero hT]
    push_cast
    ring_nf
  · rw [abs_le]
    constructor <;> linarith

/-- Witness for C7 at a concrete schedule, tensors and timestep batch. -/
theorem q_sample_formula_witness :
    (GaussianDiffusion.q_sample (GaussianDiffusion.build 10 (1 / 10) (1 / 5)) ones
        (fun _ => 3) ones =
      fun b c h w =>
        (GaussianDiffusion.build 10 (1 / 10) (1 / 5)).sqrt_alphas_cumprod ((fun _ => 3) b) *
            ones b c h w +
          (GaussianDiffusion.build 10 (1 / 10) (1 / 5)).sqrt_one_minus_alphas_cumprod
              ((fun _ => 3) b) * ones b c h w) ∧
    (GaussianDiffusion.q_sample (GaussianDiffusion.build 10 (1 / 10) (1 / 5)) ones
        (fun _ => 0) (fun _ _ _ _ => 0) =
      fun b c h w => Real.sqrt (1 - ((1 / 10 : ℚ) : ℝ)) * ones b c h w) ∧
    |Real.sqrt (1 - ((1 / 10 : ℚ) : ℝ)) - 1| ≤ ((1 / 10 : ℚ) : ℝ) :=
  q_sample_formula 10 (1 / 10) (1 / 5) ones ones (fun _ => 3) (by norm_num) (by norm_num)
    (by norm_num)

/-! ### Claim C8: structure of the ancestral sampling loop -/

theorem range_getLast? {n : ℕ} (hn : 0 < n) : (List.range n).getLast? = some (n - 1) := by
  cases n with
  | zero => exact absurd hn (by omega)
  | succ m =>
    rw [List.range_succ, List.getLast?_concat]
    simp

theorem range_head? {n : ℕ} (hn : 0 < n) : (List.range n).head? = some 0 := by
  cases n with
  | zero => exact absurd hn (by omega)
  | succ m =>
    rw [List.range_succ_eq_map]
    rfl

theorem sampleLoopCounted_spec {σ : Type} (gen : Generator σ) (g : GaussianDiffusion)
    {sh : Shape} (model : Network sh) (hb : 0 < sh.batch) (L : List ℕ) :
    ∀ (x : Tensor sh) (st : σ) (n : ℕ),
      GaussianDiffusion.sampleLoopCounted gen g model hb L (x, st, n) =
        ((GaussianDiffusion.sampleLoop gen g model hb L (x, st)).1,
          (GaussianDiffusion.sampleLoop gen g model hb L (x, st)).2, n + L.length) := by
  induction L with
  | nil => intro x st n; simp [GaussianDiffusion.sampleLoopCounted, GaussianDiffusion.sampleLoop]
  | cons t rest ih =>
    intro x st n
    rw [GaussianDiffusion.sampleLoopCounted, GaussianDiffusion.sampleLoop]
    rw [show GaussianDiffusion.p_sample gen g model x (fun _ => t) hb st =
      ((GaussianDiffusion.p_sample gen g model x (fun _ => t) hb st).1,
        (GaussianDiffusion.p_sample gen g model x (fun _ => t) hb st).2) from rfl]
    rw [ih]
    simp only [List.length_cons]
    have hn : n + 1 + rest.length = n + (rest.length + 1) := by omega
    rw [hn]

/-- C8: with a seed, `sample` draws the initial tensor from the freshly
seeded generator and folds `p_sample` over `reversed(range(T))`: that list
has length exactly `T`, is strictly descending from `T - 1` down to `0`,
contains every timestep below `T` (no skips), and the instrumented loop
counts exactly `T` `p_sample` calls — one network evaluation each — while
computing the same output tensor. -/
theorem sample_structure {σ : Type} (gen : Generator σ) (g : GaussianDiffusion)
    {sh : Shape} (model : Network sh) (hb : 0 < sh.batch) (sd : ℤ) (st : σ)
    (hT : 0 < g.timesteps) :
    (GaussianDiffusion.sample gen g model hb (some sd) st =
      (GaussianDiffusion.sampleLoop gen g model hb (GaussianDiffusion.sampleTimesteps g)
        (gen.randn (gen.manualSeed sd) sh)).1) ∧
    (GaussianDiffusion.sampleTimesteps g).length = g.timesteps ∧
    List.Pairwise (· > ·) (GaussianDiffusion.sampleTimesteps g) ∧
    (GaussianDiffusion.sampleTimesteps g).head? = some (g.timesteps - 1) ∧
    (GaussianDiffusion.sampleTimesteps g).getLast? = some 0 ∧
    (∀ u, u ∈ GaussianDiffusion.sampleTimesteps g ↔ u < g.timesteps) ∧
    (∀ (x : Tensor sh) (st0 : σ),
      (GaussianDiffusion.sampleLoopCounted gen g model hb
        (GaussianDiffusion.sampleTimesteps g) (x, st0, 0)).2.2 = g.timesteps ∧
      (GaussianDiffusion.sampleLoopCounted gen g model hb
        (GaussianDiffusion.sampleTimesteps g) (x, st0, 0)).1 =
        (GaussianDiffusion.sampleLoop gen g model hb
          (GaussianDiffusion.sampleTimesteps g) (x, st0)).1) := by
  refine ⟨rfl, ?_, ?_, ?_, ?_, ?_, ?_⟩
  · rw [GaussianDiffusion.sampleTimesteps, List.length_reverse, List.length_range]
  · rw [GaussianDiffusion.sampleTimesteps]
    rw [List.pairwise_reverse]
    exact List.pairwise_lt_range g.timesteps
  · rw [GaussianDiffusion.sampleTimesteps, List.head?_reverse, range_getLast? hT]
  · rw [GaussianDiffusion.sampleTimesteps, List.getLast?_reverse, range_head? hT]
  · intro u
    rw [GaussianDiffusion.sampleTimesteps, List.mem_reverse, List.mem_range]
  · intro x st0
    rw [sampleLoopCounted_spec gen g model hb (GaussianDiffusion.sampleTimesteps g) x st0 0]
    refine ⟨?_, rfl⟩
    show 0 + (GaussianDiffusion.sampleTimesteps g).length = g.timesteps
    rw [GaussianDiffusion.sampleTimesteps, List.length_reverse, List.length_range]
    omega

/-- Witness for C8 at a concrete generator, schedule, network and seed. -/
theorem sample_structure_witness :
    (GaussianDiffusion.sample natGen g10 zeroNet shape1_batch_pos (some 42) 0 =
      (GaussianDiffusion.sampleLoop natGen g10 zeroNet shape1_batch_pos
        (GaussianDiffusion.sampleTimesteps g10)
        (natGen.randn (natGen.manualSeed 42) shape1)).1) ∧
    (GaussianDiffusion.sampleTimesteps g10).length = g10.timesteps ∧
    List.Pairwise (· > ·) (GaussianDiffusion.sampleTimesteps g10) ∧
    (GaussianDiffusion.sampleTimesteps g10).head? = some (g10.timesteps - 1) ∧
    (GaussianDiffusion.sampleTimesteps g10).getLast? = some 0 ∧
    (∀ u, u ∈ GaussianDiffusion.sampleTimesteps g10 ↔ u < g10.timesteps) ∧
    (∀ (x : Tensor shape1) (st0 : ℕ),
      (GaussianDiffusion.sampleLoopCounted natGen g10 zeroNet shape1_batch_pos
        (GaussianDiffusion.sampleTimesteps g10) (x, st0, 0)).2.2 = g10.timesteps ∧
      (GaussianDiffusion.sampleLoopCounted natGen g10 zeroNet shape1_batch_pos
        (GaussianDiffusion.sampleTimesteps g10) (x, st0, 0)).1 =
        (GaussianDiffusion.sampleLoop natGen g10 zeroNet shape1_batch_pos
          (GaussianDiffusion.sampleTimesteps g10) (x, st0)).1) :=
  sample_structure natGen g10 zeroNet shape1_batch_pos 42 0 (by decide)

/-! ### Claim C2: the DDIM sub-schedule -/

theorem pyFloorDiv_nat (T S : ℕ) (hS : 0 < S) :
    pyFloorDiv (T : ℤ) (S : ℤ) = Except.ok ((T / S : ℕ) : ℤ) := by
  unfold pyFloorDiv
  rw [if_neg (by exact_mod_cast hS.ne')]
  congr 1
  rw [Int.fdiv_eq_ediv _ (by positivity)]
  exact (Int.ofNat_ediv T S).symm

theorem pyRange_nat (T k : ℕ) (hk : 0 < k) :
    pyRange 0 (T : ℤ) (k : ℤ) =
      Except.ok ((List.range ((T + k - 1) / k)).map fun i : ℕ => (i : ℤ) * (k : ℤ)) := by
  unfold pyRange
  rw [if_neg (by exact_mod_cast hk.ne')]
  congr 1
  have hlen : pyRangeLen 0 (T : ℤ) (k : ℤ) = (T + k - 1) / k := by
    unfold pyRangeLen
    rw [if_pos (by exact_mod_cast hk)]
    have hcast : (T : ℤ) - 0 + (k : ℤ) - 1 = ((T + k - 1 : ℕ) : ℤ) := by omega
    rw [hcast, Int.fdiv_eq_ediv _ (by positivity), ← Int.ofNat_ediv]
    exact Int.toNat_natCast _
  rw [hlen]
  simp only [zero_add]

theorem ddimTimesteps_ok {T S : ℕ} (h1 : 1 ≤ S) (h2 : S ≤ T) :
    GaussianDiffusion.ddimTimesteps T (S : ℤ) =
      Except.ok (((List.range ((T + T / S - 1) / (T / S))).map
        fun i : ℕ => (i : ℤ) * ((T / S : ℕ) : ℤ)).reverse) := by
  have hk : 0 < T / S := (Nat.one_le_div_iff (by omega)).mpr h2
  unfold GaussianDiffusion.ddimTimesteps
  rw [pyFloorDiv_nat T S (by omega)]
  show (pyRange 0 (T : ℤ) ((T / S : ℕ) : ℤ) >>= fun ts => pure ts.reverse) = _
  rw [pyRange_nat T (T / S) hk]
  rfl

theorem ddimCount_eq_of_dvd {T S : ℕ} (hk : 0 < T / S) (hdvd : S ∣ T) :
    (T + T / S - 1) / (T / S) = S := by
  have hTk : T / S * S = T := Nat.div_mul_cancel hdvd
  have e1 : S * (T / S) ≤ T + T / S - 1 := by
    rw [Nat.mul_comm S (T / S), hTk]
    omega
  have e2 : T + T / S - 1 < (S + 1) * (T / S) := by
    rw [Nat.add_mul, Nat.one_mul, Nat.mul_comm S (T / S), hTk]
    omega
  exact Nat.div_eq_of_lt_le e1 e2

theorem ddimIndex_mul_lt {T k i : ℕ} (hT : 0 < T) (hk : 0 < k)
    (hi : i < (T + k - 1) / k) : i * k < T := by
  have hnk : (T + k - 1) / k * k ≤ T + k - 1 := Nat.div_mul_le_self (T + k - 1) k
  have hle : i * k ≤ ((T + k - 1) / k - 1) * k := Nat.mul_le_mul_right k (by omega)
  have hsub : ((T + k - 1) / k - 1) * k = (T + k - 1) / k * k - k := by
    rw [Nat.sub_mul, Nat.one_mul]
  omega

/-- C2 counterexample: with T = 10 and S = 4 (so 1 ≤ S ≤ T), the DDIM
sub-schedule is [8, 6, 4, 2, 0] — five indices, not S = 4. -/
theorem ddim_subschedule_count_not_S :
    GaussianDiffusion.ddimTimesteps 10 (4 : ℤ) = Except.ok [8, 6, 4, 2, 0] ∧
    ((1 : ℕ) ≤ 4 ∧ (4 : ℕ) ≤ 10) ∧ ([8, 6, 4, 2, 0] : List ℤ).length ≠ 4 := by
  decide

/-- C2 amended: for `1 ≤ S ≤ T` the sub-schedule exists, equals the multiples
of `k = ⌊T/S⌋` below `T` read in decreasing order, has exactly
`⌈T/k⌉ = (T + k - 1) / k` indices — which is `S` exactly when `S` divides `T`
but can exceed `S` otherwise — is strictly decreasing, stays within
`[0, T-1]`, uses a next cumulative-alpha of exactly `1.0` on its final
iteration, and `sample_ddim` runs the (one-network-evaluation-per-index)
loop over precisely this list. -/
theorem ddim_subschedule_characterization {σ : Type} (gen : Generator σ)
    (g : GaussianDiffusion) {sh : Shape} (model : Network sh) (S : ℕ) (seed : ℤ)
    (st : σ) (h1 : 1 ≤ S) (h2 : S ≤ g.timesteps) :
    ∃ L : List ℤ,
      GaussianDiffusion.ddimTimesteps g.timesteps (S : ℤ) = Except.ok L ∧
      L = ((List.range ((g.timesteps + g.timesteps / S - 1) / (g.timesteps / S))).map
        fun i : ℕ => (i : ℤ) * ((g.timesteps / S : ℕ) : ℤ)).reverse ∧
      L.length = (g.timesteps + g.timesteps / S - 1) / (g.timesteps / S) ∧
      (S ∣ g.timesteps → L.length = S) ∧
      List.Pairwise (· > ·) L ∧
      (∀ u ∈ L, 0 ≤ u ∧ u < (g.timesteps : ℤ)) ∧
      (∀ (x : Tensor sh) (t : ℤ), GaussianDiffusion.ddimLoop g model [t] x =
        GaussianDiffusion.ddimStep g model t 1 x) ∧
      GaussianDiffusion.sample_ddim gen g model (some seed) (S : ℤ) st =
        Except.ok (GaussianDiffusion.ddimLoop g model L
          (gen.randn (gen.manualSeed seed) sh).1) := by
  have hT : 0 < g.timesteps := by omega
  have hk : 0 < g.timesteps / S := (Nat.one_le_div_iff (by omega)).mpr h2
  refine ⟨_, ddimTimesteps_ok h1 h2, rfl, ?_, ?_, ?_, ?_, ?_, ?_⟩
  · rw [List.length_reverse, List.length_map, List.length_range]
  · intro hdvd
    rw [List.length_reverse, List.length_map, List.length_range]
    exact ddimCount_eq_of_dvd hk hdvd
  · rw [List.pairwise_reverse, List.pairwise_map]
    refine (List.pairwise_lt_range _).imp ?_
    intro a b hab
    exact mul_lt_mul_of_pos_right (by exact_mod_cast hab) (by exact_mod_cast hk)
  · intro u hu
    rw [List.mem_reverse, List.mem_map] at hu
    obtain ⟨i, hi, rfl⟩ := hu
    rw [List.mem_range] at hi
    refine ⟨by positivity, ?_⟩
    exact_mod_cast ddimIndex_mul_lt hT hk hi
  · intro x t
    rfl
  · show (GaussianDiffusion.ddimTimesteps g.timesteps (S : ℤ) >>= fun ts =>
      pure (GaussianDiffusion.ddimLoop g model ts
        (gen.randn (gen.manualSeed seed) sh).1)) = _
    rw [ddimTimesteps_ok h1 h2]
    rfl

/-- Witness for the amended C2 at T = 10, S = 5 (where S divides T). -/
theorem ddim_subschedule_characterization_witness :
    ∃ L : List ℤ,
      GaussianDiffusion.ddimTimesteps g10.timesteps ((5 : ℕ) : ℤ) = Except.ok L ∧
      L = ((List.range ((g10.timesteps + g10.timesteps / 5 - 1) / (g10.timesteps / 5))).map
        fun i : ℕ => (i : ℤ) * ((g10.timesteps / 5 : ℕ) : ℤ)).reverse ∧
      L.length = (g10.timesteps + g10.timesteps / 5 - 1) / (g10.timesteps / 5) ∧
      (5 ∣ g10.timesteps → L.length = 5) ∧
      List.Pairwise (· > ·) L ∧
      (∀ u ∈ L, 0 ≤ u ∧ u < (g10.timesteps : ℤ)) ∧
      (∀ (x : Tensor shape1) (t : ℤ), GaussianDiffusion.ddimLoop g10 zeroNet [t] x =
        GaussianDiffusion.ddimStep g10 zeroNet t 1 x) ∧
      GaussianDiffusion.sample_ddim natGen g10 zeroNet (some 42) ((5 : ℕ) : ℤ) 0 =
        Except.ok (GaussianDiffusion.ddimLoop g10 zeroNet L
          (natGen.randn (natGen.manualSeed 42) shape1).1) :=
  ddim_subschedule_characterization natGen g10 zeroNet 5 42 0 (by decide) (by decide)

/-! ### Claim C5: step-count validation of `sample_ddim` -/

theorem ddimTimesteps_steps_zero (T : ℕ) :
    GaussianDiffusion.ddimTimesteps T 0 =
      Except.error "integer division or modulo by zero" := by
  unfold GaussianDiffusion.ddimTimesteps pyFloorDiv
  rw [if_pos rfl]
  rfl

theorem ddimTimesteps_steps_gt (T : ℕ) (S : ℤ) (hT : 0 < T) (hS : (T : ℤ) < S) :
    GaussianDiffusion.ddimTimesteps T S =
      Except.error "range() arg 3 must not be zero" := by
  unfold GaussianDiffusion.ddimTimesteps pyFloorDiv
  rw [if_neg (by omega)]
  show (pyRange 0 (T : ℤ) ((T : ℤ).fdiv S) >>= fun ts => pure ts.reverse) = _
  have hfd : (T : ℤ).fdiv S = 0 := by
    rw [Int.fdiv_eq_ediv _ (by omega)]
    exact Int.ediv_eq_zero_of_lt (by positivity) hS
  rw [hfd]
  unfold pyRange
  rw [if_pos rfl]
  rfl

theorem ddimTimesteps_steps_neg (T : ℕ) (S : ℤ) (hT : 0 < T) (hS : S < 0) :
    GaussianDiffusion.ddimTimesteps T S = Except.ok [] := by
  obtain ⟨m, rfl⟩ : ∃ m, T = m + 1 := ⟨T - 1, by omega⟩
  obtain ⟨n, rfl⟩ : ∃ n, S = Int.negSucc n := by
    cases S with
    | ofNat k => exact absurd hS (Int.ofNat_nonneg k).not_lt
    | negSucc n => exact ⟨n, rfl⟩
  have hfd0 : ((m + 1 : ℕ) : ℤ).fdiv (Int.negSucc n) = Int.negSucc (m / (n + 1)) := rfl
  obtain ⟨j, hj⟩ : ∃ j, m / (n + 1) = j := ⟨_, rfl⟩
  rw [hj] at hfd0
  have hfd : ((m + 1 : ℕ) : ℤ).fdiv (Int.negSucc n) = -((j : ℤ) + 1) := by
    rw [hfd0, Int.negSucc_eq]
  unfold GaussianDiffusion.ddimTimesteps pyFloorDiv
  rw [if_neg (by rw [Int.negSucc_eq]; omega)]
  show (pyRange 0 ((m + 1 : ℕ) : ℤ) (((m + 1 : ℕ) : ℤ).fdiv (Int.negSucc n)) >>=
    fun ts => pure ts.reverse) = _
  rw [hfd]
  unfold pyRange
  rw [if_neg (by omega)]
  have hlen : pyRangeLen 0 ((m + 1 : ℕ) : ℤ) (-((j : ℤ) + 1)) = 0 := by
    unfold pyRangeLen
    rw [if_neg (by omega)]
    apply Int.toNat_of_nonpos
    rw [Int.fdiv_eq_ediv _ (by omega)]
    rcases le_or_lt 0 ((0 : ℤ) - ((m + 1 : ℕ) : ℤ) + - -((j : ℤ) + 1) - 1) with hc | hc
    · rw [Int.ediv_eq_zero_of_lt hc (by omega)]
    · exact (Int.ediv_neg' hc (by omega)).le
  rw [hlen]
  rfl

/-- C5 counterexample: at T = 10 the step count S = -1 is outside [1, T],
yet `sample_ddim` raises nothing: it silently returns the initial noise
draw, having evaluated the network zero times. -/
theorem ddim_negative_steps_silently_ok :
    GaussianDiffusion.sample_ddim constGen g10 zeroNet (some 7) (-1) () =
      Except.ok ones ∧ (-1 : ℤ) < 1 := by
  constructor
  · have h : GaussianDiffusion.ddimTimesteps g10.timesteps (-1) = Except.ok [] := by
      decide
    show (GaussianDiffusion.ddimTimesteps g10.timesteps (-1) >>= fun ts =>
      pure (GaussianDiffusion.ddimLoop g10 zeroNet ts
        (constGen.randn (constGen.manualSeed 7) shape1).1)) = _
    rw [h]
    rfl
  · decide

/-- C5 amended: `sample_ddim` does raise before any network evaluation for
`S = 0` (Python's ZeroDivisionError from `//`) and for `S > T` (ValueError
from `range` with step 0), but for `S < 0` it raises nothing and silently
returns the initial Gaussian draw after zero network evaluations. -/
theorem ddim_steps_validation {σ : Type} (gen : Generator σ) (g : GaussianDiffusion)
    {sh : Shape} (model : Network sh) (seed : ℤ) (st : σ) (hT : 0 < g.timesteps) :
    (GaussianDiffusion.sample_ddim gen g model (some seed) 0 st =
      Except.error "integer division or modulo by zero") ∧
    (∀ S : ℤ, (g.timesteps : ℤ) < S →
      GaussianDiffusion.sample_ddim gen g model (some seed) S st =
        Except.error "range() arg 3 must not be zero") ∧
    (∀ S : ℤ, S < 0 →
      GaussianDiffusion.sample_ddim gen g model (some seed) S st =
        Except.ok ((gen.randn (gen.manualSeed seed) sh).1)) := by
  refine ⟨?_, ?_, ?_⟩
  · show (GaussianDiffusion.ddimTimesteps g.timesteps 0 >>= fun ts =>
      pure (GaussianDiffusion.ddimLoop g model ts
        (gen.randn (gen.manualSeed seed) sh).1)) = _
    rw [ddimTimesteps_steps_zero]
    rfl
  · intro S hS
    show (GaussianDiffusion.ddimTimesteps g.timesteps S >>= fun ts =>
      pure (GaussianDiffusion.ddimLoop g model ts
        (gen.randn (gen.manualSeed seed) sh).1)) = _
    rw [ddimTimesteps_steps_gt g.timesteps S hT hS]
    rfl
  · intro S hS
    show (GaussianDiffusion.ddimTimesteps g.timesteps S >>= fun ts =>
      pure (GaussianDiffusion.ddimLoop g model ts
        (gen.randn (gen.manualSeed seed) sh).1)) = _
    rw [ddimTimesteps_steps_neg g.timesteps S hT hS]
    rfl

/-- Witness for the amended C5 at T = 10 with S = 0, S = 11 and S = -1. -/
theorem ddim_steps_validation_witness :
    (GaussianDiffusion.sample_ddim natGen g10 zeroNet (some 7) 0 0 =
      Except.error "integer division or modulo by zero") ∧
    (GaussianDiffusion.sample_ddim natGen g10 zeroNet (some 7) 11 0 =
      Except.error "range() arg 3 must not be zero") ∧
    (GaussianDiffusion.sample_ddim natGen g10 zeroNet (some 7) (-1) 0 =
      Except.ok ((natGen.randn (natGen.manualSeed 7) shape1).1)) := by
  have h := ddim_steps_validation natGen g10 zeroNet 7 (0 : ℕ) (by decide)
  exact ⟨h.1, h.2.1 11 (by decide), h.2.2 (-1) (by decide)⟩

/-! ### Claim C10: zero-noise DDIM closed form -/

theorem clamp_of_one_le {r : ℝ} (h : 1 ≤ r) : clamp r (-1) 1 = 1 := by
  unfold clamp
  rw [max_eq_right (by linarith), min_eq_left h]

theorem clamp_of_abs_le {r : ℝ} (h : |r| ≤ 1) : clamp r (-1) 1 = r := by
  rw [abs_le] at h
  unfold clamp
  rw [max_eq_right h.1, min_eq_right h.2]

theorem ddimStep_zero_noise {sh : Shape} (g : GaussianDiffusion) (t : ℤ) (acn : ℝ)
    (x : Tensor sh) :
    GaussianDiffusion.ddimStep g (zeroNetwork sh) t acn x =
      fun b c h w => Real.sqrt acn *
        clamp (x b c h w / Real.sqrt (GaussianDiffusion.alphasCumprodR g t)) (-1) 1 := by
  funext b c h w
  show Real.sqrt acn *
      clamp ((x b c h w - Real.sqrt (1 - GaussianDiffusion.alphasCumprodR g t) * 0) /
        Real.sqrt (GaussianDiffusion.alphasCumprodR g t)) (-1) 1 +
    Real.sqrt (1 - acn) * 0 = _
  rw [mul_zero, sub_zero, mul_zero, add_zero]

theorem ddimLoop_zero_noise_saturated {sh : Shape} (g : GaussianDiffusion) :
    ∀ (rest : List ℤ) (t : ℤ) (x : Tensor sh),
      0 < GaussianDiffusion.alphasCumprodR g t →
      GaussianDiffusion.alphasCumprodR g t ≤ 1 →
      (∀ u ∈ rest, 0 < GaussianDiffusion.alphasCumprodR g u ∧
        GaussianDiffusion.alphasCumprodR g u ≤ 1) →
      (∀ b c h w, Real.sqrt (GaussianDiffusion.alphasCumprodR g t) ≤ x b c h w) →
      GaussianDiffusion.ddimLoop g (zeroNetwork sh) (t :: rest) x = fun _ _ _ _ => 1 := by
  intro rest
  induction rest with
  | nil =>
    intro t x hpos hle _ hx
    show GaussianDiffusion.ddimLoop g (zeroNetwork sh) []
      (GaussianDiffusion.ddimStep g (zeroNetwork sh) t (GaussianDiffusion.ddimNextAlpha g []) x) =
        _
    rw [show GaussianDiffusion.ddimNextAlpha g [] = 1 from rfl, ddimStep_zero_noise]
    show (fun b c h w => Real.sqrt 1 *
      clamp (x b c h w / Real.sqrt (GaussianDiffusion.alphasCumprodR g t)) (-1) 1) = _
    funext b c h w
    have hs : 0 < Real.sqrt (GaussianDiffusion.alphasCumprodR g t) := Real.sqrt_pos.mpr hpos
    have h1 : 1 ≤ x b c h w / Real.sqrt (GaussianDiffusion.alphasCumprodR g t) :=
      (one_le_div hs).mpr (hx b c h w)
    rw [Real.sqrt_one, clamp_of_one_le h1, one_mul]
  | cons t' rest' ih =>
    intro t x hpos hle hrest hx
    show GaussianDiffusion.ddimLoop g (zeroNetwork sh) (t' :: rest')
      (GaussianDiffusion.ddimStep g (zeroNetwork sh) t
        (GaussianDiffusion.ddimNextAlpha g (t' :: rest')) x) = _
    have ht' := hrest t' (List.mem_cons_self t' rest')
    have hstep : GaussianDiffusion.ddimStep g (zeroNetwork sh) t
        (GaussianDiffusion.ddimNextAlpha g (t' :: rest')) x =
        fun _ _ _ _ => Real.sqrt (GaussianDiffusion.alphasCumprodR g t') := by
      rw [show GaussianDiffusion.ddimNextAlpha g (t' :: rest') =
        GaussianDiffusion.alphasCumprodR g t' from rfl, ddimStep_zero_noise]
      funext b c h w
      have hs : 0 < Real.sqrt (GaussianDiffusion.alphasCumprodR g t) := Real.sqrt_pos.mpr hpos
      have h1 : 1 ≤ x b c h w / Real.sqrt (GaussianDiffusion.alphasCumprodR g t) :=
        (one_le_div hs).mpr (hx b c h w)
      rw [clamp_of_one_le h1, mul_one]
    rw [hstep]
    exact ih t' (fun _ _ _ _ => Real.sqrt (GaussianDiffusion.alphasCumprodR g t')) ht'.1 ht'.2
      (fun u hu => hrest u (List.mem_cons_of_mem t' hu)) (fun b c h w => le_refl _)

theorem ddimLoop_zero_noise_unclamped {sh : Shape} (g : GaussianDiffusion) :
    ∀ (rest : List ℤ) (t : ℤ) (y : Tensor sh),
      0 < GaussianDiffusion.alphasCumprodR g t →
      GaussianDiffusion.alphasCumprodR g t ≤ 1 →
      (∀ u ∈ rest, 0 < GaussianDiffusion.alphasCumprodR g u ∧
        GaussianDiffusion.alphasCumprodR g u ≤ 1) →
      (∀ b c h w, |y b c h w| ≤ 1) →
      GaussianDiffusion.ddimLoop g (zeroNetwork sh) (t :: rest)
        (fun b c h w => Real.sqrt (GaussianDiffusion.alphasCumprodR g t) * y b c h w) = y := by
  intro rest
  induction rest with
  | nil =>
    intro t y hpos hle _ hy
    show GaussianDiffusion.ddimLoop g (zeroNetwork sh) []
      (GaussianDiffusion.ddimStep g (zeroNetwork sh) t (GaussianDiffusion.ddimNextAlpha g [])
        (fun b c h w => Real.sqrt (GaussianDiffusion.alphasCumprodR g t) * y b c h w)) = _
    rw [show GaussianDiffusion.ddimNextAlpha g [] = 1 from rfl, ddimStep_zero_noise]
    show (fun b c h w => Real.sqrt 1 *
      clamp (Real.sqrt (GaussianDiffusion.alphasCumprodR g t) * y b c h w /
        Real.sqrt (GaussianDiffusion.alphasCumprodR g t)) (-1) 1) = _
    funext b c h w
    have hs : Real.sqrt (GaussianDiffusion.alphasCumprodR g t) ≠ 0 :=
      (Real.sqrt_pos.mpr hpos).ne'
    rw [mul_comm (Real.sqrt (GaussianDiffusion.alphasCumprodR g t)) (y b c h w),
      mul_div_assoc, div_self hs, mul_one, clamp_of_abs_le (hy b c h w), Real.sqrt_one,
      one_mul]
  | cons t' rest' ih =>
    intro t y hpos hle hrest hy
    show GaussianDiffusion.ddimLoop g (zeroNetwork sh) (t' :: rest')
      (GaussianDiffusion.ddimStep g (zeroNetwork sh) t
        (GaussianDiffusion.ddimNextAlpha g (t' :: rest'))
        (fun b c h w => Real.sqrt (GaussianDiffusion.alphasCumprodR g t) * y b c h w)) = _
    have ht' := hrest t' (List.mem_cons_self t' rest')
    have hstep : GaussianDiffusion.ddimStep g (zeroNetwork sh) t
        (GaussianDiffusion.ddimNextAlpha g (t' :: rest'))
        (fun b c h w => Real.sqrt (GaussianDiffusion.alphasCumprodR g t) * y b c h w) =
        fun b c h w => Real.sqrt (GaussianDiffusion.alphasCumprodR g t') * y b c h w := by
      rw [show GaussianDiffusion.ddimNextAlpha g (t' :: rest') =
        GaussianDiffusion.alphasCumprodR g t' from rfl, ddimStep_zero_noise]
      funext b c h w
      have hs : Real.sqrt (GaussianDiffusion.alphasCumprodR g t) ≠ 0 :=
        (Real.sqrt_pos.mpr hpos).ne'
      rw [mul_comm (Real.sqrt (GaussianDiffusion.alphasCumprodR g t)) (y b c h w),
        mul_div_assoc, div_self hs, mul_one, clamp_of_abs_le (hy b c h w)]
    rw [hstep]
    exact ih t' y ht'.1 ht'.2 (fun u hu => hrest u (List.mem_cons_of_mem t' hu)) hy

theorem ddimChain_head (g : GaussianDiffusion) :
    ∀ (rest : List ℤ) (t : ℤ),
      (∀ u ∈ rest, 0 < GaussianDiffusion.alphasCumprodR g u) →
      GaussianDiffusion.ddimChain g (t :: rest) =
        1 / Real.sqrt (GaussianDiffusion.alphasCumprodR g t) := by
  intro rest
  induction rest with
  | nil =>
    intro t _
    show Real.sqrt (GaussianDiffusion.ddimNextAlpha g []) /
      Real.sqrt (GaussianDiffusion.alphasCumprodR g t) * GaussianDiffusion.ddimChain g [] = _
    rw [show GaussianDiffusion.ddimNextAlpha g [] = 1 from rfl,
      show GaussianDiffusion.ddimChain g [] = 1 from rfl, Real.sqrt_one, mul_one]
  | cons t' rest' ih =>
    intro t hall
    show Real.sqrt (GaussianDiffusion.ddimNextAlpha g (t' :: rest')) /
      Real.sqrt (GaussianDiffusion.alphasCumprodR g t) *
        GaussianDiffusion.ddimChain g (t' :: rest') = _
    rw [show GaussianDiffusion.ddimNextAlpha g (t' :: rest') =
      GaussianDiffusion.alphasCumprodR g t' from rfl,
      ih t' (fun u hu => hall u (List.mem_cons_of_mem t' hu))]
    have hpos : 0 < Real.sqrt (GaussianDiffusion.alphasCumprodR g t') :=
      Real.sqrt_pos.mpr (hall t' (List.mem_cons_self t' rest'))
    rcases eq_or_ne (Real.sqrt (GaussianDiffusion.alphasCumprodR g t)) 0 with h0 | h0
    · rw [h0, div_zero, zero_mul, div_zero]
    · field_simp
      ring

theorem g1000_ac_bounds : ∀ u ∈ ddimL50,
    0 < GaussianDiffusion.alphasCumprodR g1000 u ∧
    GaussianDiffusion.alphasCumprodR g1000 u ≤ 1 := by
  have hmem : ∀ u ∈ ddimL50, u.toNat < 1000 := by decide
  intro u hu
  have h := hmem u hu
  unfold GaussianDiffusion.alphasCumprodR g1000
  constructor
  · exact_mod_cast GaussianDiffusion.build_alphas_cumprod_pos (by norm_num) (by norm_num)
      (by norm_num) h
  · exact_mod_cast GaussianDiffusion.build_alphas_cumprod_le_one (by norm_num) (by norm_num)
      (by norm_num) h

theorem g1000_ac_lt_one : ∀ u ∈ ddimL50,
    GaussianDiffusion.alphasCumprodR g1000 u < 1 := by
  have hmem : ∀ u ∈ ddimL50, u.toNat < 1000 := by decide
  intro u hu
  have h := hmem u hu
  unfold GaussianDiffusion.alphasCumprodR g1000
  exact_mod_cast GaussianDiffusion.build_alphas_cumprod_lt_one (by norm_num) (by norm_num)
    (by norm_num) h

theorem g10_ac_bounds : ∀ u ∈ ([8, 6, 4, 2, 0] : List ℤ),
    0 < GaussianDiffusion.alphasCumprodR g10 u ∧
    GaussianDiffusion.alphasCumprodR g10 u ≤ 1 := by
  have hmem : ∀ u ∈ ([8, 6, 4, 2, 0] : List ℤ), u.toNat < 10 := by decide
  intro u hu
  have h := hmem u hu
  unfold GaussianDiffusion.alphasCumprodR g10
  constructor
  · exact_mod_cast GaussianDiffusion.build_alphas_cumprod_pos (by norm_num) (by norm_num)
      (by norm_num) h
  · exact_mod_cast GaussianDiffusion.build_alphas_cumprod_le_one (by norm_num) (by norm_num)
      (by norm_num) h

/-- C10 counterexample: in the specified scenario (T = 1000,
beta_start = 1/10000, beta_end = 1/50, S = 50, shape (1,3,64,64), seeded
generator, zero-noise stub network) with an all-ones initial Gaussian draw,
`sample_ddim` returns the all-ones tensor — the clamp on `pred_x0` saturates
at every step — and this is NOT the initial sample scaled by the chain of
per-step sqrt-cumulative-alpha factors (whose telescoped value exceeds 1). -/
theorem ddim_zero_noise_closed_form_fails :
    GaussianDiffusion.sample_ddim constGen g1000 zeroNet (some 42) 50 () =
      Except.ok (GaussianDiffusion.ddimLoop g1000 zeroNet ddimL50 ones) ∧
    GaussianDiffusion.ddimLoop g1000 zeroNet ddimL50 ones = (fun _ _ _ _ => 1) ∧
    GaussianDiffusion.ddimLoop g1000 zeroNet ddimL50 ones ≠
      (fun b c h w => ones b c h w * GaussianDiffusion.ddimChain g1000 ddimL50) := by
  have hL0 : ddimL50 ≠ [] := by decide
  obtain ⟨t0, rest, hL⟩ : ∃ t0 rest, ddimL50 = t0 :: rest := by
    cases h : ddimL50 with
    | nil => exact absurd h hL0
    | cons a l => exact ⟨a, l, rfl⟩
  have ht0mem : t0 ∈ ddimL50 := by rw [hL]; exact List.mem_cons_self _ _
  have ht0 := g1000_ac_bounds t0 ht0mem
  have hrest : ∀ u ∈ rest, 0 < GaussianDiffusion.alphasCumprodR g1000 u ∧
      GaussianDiffusion.alphasCumprodR g1000 u ≤ 1 :=
    fun u hu => g1000_ac_bounds u (by rw [hL]; exact List.mem_cons_of_mem _ hu)
  have hsat : GaussianDiffusion.ddimLoop g1000 zeroNet ddimL50 ones = fun _ _ _ _ => 1 := by
    rw [hL]
    exact ddimLoop_zero_noise_saturated g1000 rest t0 ones ht0.1 ht0.2 hrest
      (fun b c h w => Real.sqrt_le_one.mpr ht0.2)
  have hchain : GaussianDiffusion.ddimChain g1000 ddimL50 =
      1 / Real.sqrt (GaussianDiffusion.alphasCumprodR g1000 t0) := by
    rw [hL]
    exact ddimChain_head g1000 rest t0 (fun u hu => (hrest u hu).1)
  have hlt : GaussianDiffusion.alphasCumprodR g1000 t0 < 1 := g1000_ac_lt_one t0 ht0mem
  have hsq : Real.sqrt (GaussianDiffusion.alphasCumprodR g1000 t0) < 1 := by
    have := Real.sqrt_lt_sqrt ht0.1.le hlt
    rwa [Real.sqrt_one] at this
  have hgt : 1 < 1 / Real.sqrt (GaussianDiffusion.alphasCumprodR g1000 t0) := by
    rw [lt_div_iff₀ (Real.sqrt_pos.mpr ht0.1), one_mul]
    exact hsq
  refine ⟨?_, hsat, ?_⟩
  · have hts : GaussianDiffusion.ddimTimesteps g1000.timesteps 50 = Except.ok ddimL50 := by
      decide
    show (GaussianDiffusion.ddimTimesteps g1000.timesteps 50 >>= fun ts =>
      pure (GaussianDiffusion.ddimLoop g1000 zeroNet ts
        (constGen.randn (constGen.manualSeed 42) shape1).1)) = _
    rw [hts]
    rfl
  · intro heq
    have hpt := congrFun (congrFun (congrFun (congrFun (hsat.symm.trans heq)
      ⟨0, by decide⟩) ⟨0, by decide⟩) ⟨0, by decide⟩) ⟨0, by decide⟩
    rw [hchain] at hpt
    have hones : ones ⟨0, by decide⟩ ⟨0, by decide⟩ ⟨0, by decide⟩ ⟨0, by decide⟩ = 1 := rfl
    rw [hones, one_mul] at hpt
    linarith

/-- C10 amended: the zero-noise closed form holds exactly when the clamp on
`pred_x0` never activates: when every component of the initial sample has
magnitude at most `sqrt(alphas_cumprod[t₀])` (`t₀` the first sub-schedule
timestep), the DDIM output equals the initial sample multiplied by the chain
of `sqrt(alpha_cumprod_next)/sqrt(alpha_cumprod[t_i])` factors, which
telescopes to `1/sqrt(alphas_cumprod[t₀])`; for components of larger
magnitude the clamp alters the trajectory (see the counterexample). -/
theorem ddim_zero_noise_closed_form {sh : Shape} (g : GaussianDiffusion) (t0 : ℤ)
    (rest : List ℤ) (x_0 : Tensor sh)
    (hall : ∀ u ∈ t0 :: rest, 0 < GaussianDiffusion.alphasCumprodR g u ∧
      GaussianDiffusion.alphasCumprodR g u ≤ 1)
    (hx : ∀ b c h w, |x_0 b c h w| ≤ Real.sqrt (GaussianDiffusion.alphasCumprodR g t0)) :
    GaussianDiffusion.ddimLoop g (zeroNetwork sh) (t0 :: rest) x_0 =
      (fun b c h w => x_0 b c h w * GaussianDiffusion.ddimChain g (t0 :: rest)) ∧
    GaussianDiffusion.ddimChain g (t0 :: rest) =
      1 / Real.sqrt (GaussianDiffusion.alphasCumprodR g t0) := by
  have ht0 := hall t0 (List.mem_cons_self _ _)
  have hrest : ∀ u ∈ rest, 0 < GaussianDiffusion.alphasCumprodR g u ∧
      GaussianDiffusion.alphasCumprodR g u ≤ 1 :=
    fun u hu => hall u (List.mem_cons_of_mem _ hu)
  have hchain := ddimChain_head g rest t0 (fun u hu => (hrest u hu).1)
  refine ⟨?_, hchain⟩
  have hsq : 0 < Real.sqrt (GaussianDiffusion.alphasCumprodR g t0) := Real.sqrt_pos.mpr ht0.1
  have hy : ∀ b c h w,
      |x_0 b c h w / Real.sqrt (GaussianDiffusion.alphasCumprodR g t0)| ≤ 1 := by
    intro b c h w
    rw [abs_div, abs_of_nonneg (Real.sqrt_nonneg _), div_le_one hsq]
    exact hx b c h w
  have hx0eq : x_0 = fun b c h w => Real.sqrt (GaussianDiffusion.alphasCumprodR g t0) *
      (x_0 b c h w / Real.sqrt (GaussianDiffusion.alphasCumprodR g t0)) := by
    funext b c h w
    rw [mul_comm]
    exact (div_mul_cancel₀ _ hsq.ne').symm
  rw [hchain]
  conv_lhs => rw [hx0eq]
  rw [ddimLoop_zero_noise_unclamped g rest t0
    (fun b c h w => x_0 b c h w / Real.sqrt (GaussianDiffusion.alphasCumprodR g t0))
    ht0.1 ht0.2 hrest hy]
  funext b c h w
  rw [div_eq_mul_inv, one_div]

/-- Witness for the amended C10 at the small schedule T = 10 with the DDIM
sub-schedule [8, 6, 4, 2, 0] and the all-zero initial tensor. -/
theorem ddim_zero_noise_closed_form_witness :
    GaussianDiffusion.ddimLoop g10 (zeroNetwork shape1) ((8 : ℤ) :: [6, 4, 2, 0])
        (fun _ _ _ _ => 0) =
      (fun b c h w => (fun _ _ _ _ => (0 : ℝ)) b c h w *
        GaussianDiffusion.ddimChain g10 ((8 : ℤ) :: [6, 4, 2, 0])) ∧
    GaussianDiffusion.ddimChain g10 ((8 : ℤ) :: [6, 4, 2, 0]) =
      1 / Real.sqrt (GaussianDiffusion.alphasCumprodR g10 8) :=
  ddim_zero_noise_closed_form g10 8 [6, 4, 2, 0] (fun _ _ _ _ => 0) g10_ac_bounds
    (fun b c h w => by simp [Real.sqrt_nonneg])
